import Mathlib

/-!
Verification development for the `learn` interactive coding-challenge tool
(`src/index.js`). The test engine, comparator, validator, keypress reader and
duration formatter are embedded as executable Lean definitions; JavaScript
numbers are modelled as exact rationals (IEEE-754 rounding is out of scope for
the properties below, which are structural), and the `vm`-based evaluator and
the `Benchmark` library are external effects modelled as oracle inputs
(`Except` for a possibly-throwing evaluation, a rational mean for a completed
benchmark).
-/

set_option autoImplicit false
set_option maxRecDepth 40000

namespace Learn

/-- Left-pad a digit string with zeros up to length `k`
(used to render the fractional part of a decimal). -/
def padZeros (s : String) (k : Nat) : String :=
  String.mk (List.replicate (k - s.length) '0') ++ s

/-- Canonical decimal rendering of a rational, as JavaScript prints a number
that is exactly representable in decimal: minimal number of fractional
digits, no trailing zeros, integers without a decimal point. Rationals with
no finite decimal expansion (not produced by any modelled computation) get a
marker string. -/
def ratToString (q : ℚ) : String :=
  match (List.range 40).find? (fun k => (q * (10 : ℚ) ^ k).den == 1) with
  | some k =>
      let m : ℤ := (q * (10 : ℚ) ^ k).num
      let sign := if m < 0 then "-" else ""
      let a := m.natAbs
      if k == 0 then
        sign ++ toString a
      else
        sign ++ toString (a / 10 ^ k) ++ "." ++ padZeros (toString (a % 10 ^ k)) k
  | none => "nondecimal:" ++ toString q.num ++ "/" ++ toString q.den

/-- All-digit string to its numeric value (empty list is 0, as in
JavaScript's `ToNumber` where a missing integer or fraction part counts 0). -/
def digitsToNat : List Char → Nat
  | [] => 0
  | c :: cs => (c.toNat - '0'.toNat) * 10 ^ cs.length + digitsToNat cs

/-- JavaScript `ToNumber` on a string, restricted to plain decimal literals
(optional sign, digits, optional fraction): `none` models `NaN`. Exponent,
hexadecimal and `Infinity` forms are not reachable from any serialization the
claims exercise, so they are not modelled. The empty string coerces to 0. -/
def parseNumber (s : String) : Option ℚ :=
  match s.data with
  | [] => some 0
  | cs =>
    let (sgn, body) : ℚ × List Char :=
      match cs with
      | '-' :: r => (-1, r)
      | '+' :: r => (1, r)
      | r => (1, r)
    let intPart := body.takeWhile (·.isDigit)
    let rest := body.dropWhile (·.isDigit)
    match rest with
    | [] =>
        if intPart.isEmpty then none
        else some (sgn * (digitsToNat intPart : ℚ))
    | '.' :: frac =>
        if frac.all (·.isDigit) && !(intPart.isEmpty && frac.isEmpty) then
          some (sgn * ((digitsToNat intPart : ℚ) +
            (digitsToNat frac : ℚ) / 10 ^ frac.length))
        else none
    | _ => none

/-- A JavaScript value returned by evaluating user code. Numbers are exact
rationals; composite values (arrays/objects) only interact with the engine
through their serialization, which no claim exercises, so the model covers
the primitive results. `undef` is `undefined`. -/
inductive Value where
  | num (q : ℚ)
  | str (s : String)
  | bool (b : Bool)
  | null
  | undef
  deriving DecidableEq, Repr

/-- The stored expected result of a test case (`test.res`), as parsed from
YAML: a number, a string (the pre-serialized expected text), a boolean, or
null. -/
inductive Res where
  | num (q : ℚ)
  | str (s : String)
  | bool (b : Bool)
  | null
  deriving DecidableEq, Repr

/-- Serialization `JSON.stringify` of a value: `none` models the `undefined` result that
`JSON.stringify(undefined)` produces. -/
def stringify : Value → Option String
  | .num q => some (ratToString q)
  | .str s => some ("\"" ++ s ++ "\"")
  | .bool b => some (if b then "true" else "false")
  | .null => some "null"
  | .undef => none

/-- JavaScript `ToNumber` coercion of a value as used by the relational
operators in the tolerance check; `none` models `NaN`. -/
def toNumber : Value → Option ℚ
  | .num q => some q
  | .str s => parseNumber s
  | .bool b => some (if b then 1 else 0)
  | .null => some 0
  | .undef => none

/-- JavaScript loose equality `==` between the (possibly `undefined`) result
of `JSON.stringify(testResult)` and the stored `test.res` (possibly absent,
i.e. `undefined`): string-to-string compares text, string-to-number and
string-to-boolean coerce the string with `ToNumber`, `undefined` loosely
equals only `undefined` and `null`. -/
def jsLooseEq (sopt : Option String) (res : Option Res) : Bool :=
  match sopt, res with
  | none, none => true
  | none, some .null => true
  | none, some _ => false
  | some _, none => false
  | some s, some (.str t) => s == t
  | some s, some (.num n) => parseNumber s == some n
  | some s, some (.bool b) => parseNumber s == some (if b then (1 : ℚ) else 0)
  | some _, some .null => false

/-- JavaScript truthiness of an optional numeric field (`test.delta`,
`test.max_time_s`): absent (`undefined`) and 0 are falsy. -/
def truthyQ : Option ℚ → Bool
  | none => false
  | some q => q != 0

/-- The Comparator, embedded from `runTest` (src/index.js lines 182-189):
first `JSON.stringify(testResult) == test.res`; otherwise, when
`typeof test.res === 'number'` and `test.delta` is truthy, pass when
`testResult >= test.res - test.delta/2 && testResult <= test.res +
test.delta/2` (relational operators coerce `testResult` with `ToNumber`,
and any comparison against `NaN` is false). -/
def compare (actual : Value) (res : Option Res) (delta : Option ℚ) : Bool :=
  if jsLooseEq (stringify actual) res then
    true
  else
    match res, delta with
    | some (.num n), some d =>
        if d != 0 then
          match toNumber actual with
          | some a => decide (n - d / 2 ≤ a) && decide (a ≤ n + d / 2)
          | none => false
        else false
    | _, _ => false

/-- A test case as stored in a challenge's YAML record. `args` is the raw
argument source text (spliced into the call expression, consumed only by the
evaluator oracle); optional fields are `none` when absent (`undefined`). -/
structure TestCase where
  args : Option String := none
  res : Option Res := none
  delta : Option ℚ := none
  visible : Bool := false
  max_time_s : Option ℚ := none
  deriving DecidableEq, Repr

/-- The per-test result record built by `runTest`: `res` is the actual value
(absent when evaluation threw), `error` the captured exception, `time` the
benchmark mean in seconds (present only when benchmarking ran), and
`validityPass` marks correct-but-too-slow. Absent fields are `none`/`false`
(`undefined` is falsy). -/
structure TestResult where
  pass : Bool
  res : Option Value := none
  error : Option String := none
  time : Option ℚ := none
  validityPass : Bool := false
  deriving DecidableEq, Repr

/-- Embedding of `runTest` (src/index.js lines 172-211). The two `vm`
executions are oracle inputs: `evalR` is the correctness evaluation
(`Except.error` models a thrown/parse/undefined-fn failure), `benchR` the
benchmark run producing `stats.mean` seconds. Returns the `TestResult`
together with a flag recording whether the Benchmarker was invoked. The
`try`/`catch` wraps everything, so a throwing benchmark also yields the bare
`{pass: false, error}` record. -/
def runTest (test : TestCase) (evalR : Except String Value)
    (benchR : Except String ℚ) : TestResult × Bool :=
  match evalR with
  | .error e => ({ pass := false, error := some e }, false)
  | .ok v =>
    let pass0 := compare v test.res test.delta
    if pass0 && truthyQ test.max_time_s then
      match benchR with
      | .error e => ({ pass := false, error := some e }, true)
      | .ok m =>
        match test.max_time_s with
        | some t =>
          if m > t then
            ({ pass := false, res := some v, time := some m, validityPass := true }, true)
          else
            ({ pass := pass0, res := some v, time := some m }, true)
        | none => ({ pass := pass0, res := some v, time := some m }, true)
    else
      ({ pass := pass0, res := some v }, false)

/-- Result of one executed suite: `pass` starts true and is cleared by any
failing executed test; `tests` maps test name to its result in declared
order. -/
structure SuiteResult where
  pass : Bool
  tests : List (String × TestResult)
  deriving DecidableEq, Repr

/-- The report built by `Challenge.test`: `all` echoes `includeHidden`,
`pass` is cleared by any failing executed test, `suites` maps suite name to
its result in declared order. -/
structure Report where
  all : Bool
  pass : Bool
  suites : List (String × SuiteResult)
  deriving DecidableEq, Repr

/-- Oracle giving, for each test name, the evaluator outcome and the
benchmark outcome for the current solution text (the two `vm` runs inside
`runTest`). -/
def TestOracle : Type := String → Except String Value × Except String ℚ

/-- Inner loop of `Challenge.test` over one suite's test cases, in declared
order: a test executes exactly when `all || test.visible`; the suite `pass`
is the conjunction of the executed tests' `pass`. -/
def runSuiteTests (oracle : TestOracle) (all : Bool) :
    List (String × TestCase) → Bool × List (String × TestResult)
  | [] => (true, [])
  | (tn, test) :: rest =>
    if all || test.visible then
      let tr := (runTest test (oracle tn).1 (oracle tn).2).1
      let r := runSuiteTests oracle all rest
      (tr.pass && r.1, (tn, tr) :: r.2)
    else
      runSuiteTests oracle all rest

/-- Outer loop of `Challenge.test` (src/index.js lines 86-157) over the
suites in declared order: a suite with zero test cases is skipped
(`Object.keys(suite).length === 0`), every other suite gets an entry; the
report `pass` is cleared by any failing executed test. Oracle outcomes are
indexed by suite and test name. -/
def runSuites (all : Bool) (oracle : String → TestOracle) :
    List (String × List (String × TestCase)) → Bool × List (String × SuiteResult)
  | [] => (true, [])
  | (sn, suite) :: rest =>
    if suite.isEmpty then runSuites all oracle rest
    else
      let s := runSuiteTests (oracle sn) all suite
      let r := runSuites all oracle rest
      (s.1 && r.1, (sn, ⟨s.1, s.2⟩) :: r.2)

/-- Assembly of the `SessionReport` from `Challenge.test`: the `all` flag,
the aggregate `pass`, and the per-suite results. -/
def challengeTest (tests : List (String × List (String × TestCase)))
    (all : Bool) (oracle : String → TestOracle) : Report :=
  let r := runSuites all oracle tests
  { all := all, pass := r.1, suites := r.2 }

/-- One diagnostic emitted by `validateChallengeById` through its local
`error`/`warn` helpers, tagged by which check produced it. The two summary
lines at the end of the function also go through `error`/`warn` and so are
diagnostics too. -/
inductive Diag where
  | noFnName
  | noTemplate
  | noSampleSolution
  | noRecommendedTimeMs
  | noTests
  | noCorrectnessSuite
  | noEdgesSuite
  | noPerformanceSuite
  | lacksArgs (suite test : String)
  | lacksRes (suite test : String)
  | lacksMaxTime (suite test : String)
  | lacksDelta (suite test : String)
  | sampleSolutionFailed (suite test : String)
  | problemOccured
  | summaryErrors (n : ℕ)
  | summaryWarnings (n : ℕ)
  deriving DecidableEq, Repr

/-- Whether a diagnostic was emitted through `error` (as opposed to `warn`),
following which helper each call site in `validateChallengeById` uses. -/
def Diag.isError : Diag → Bool
  | .noFnName => true
  | .noTemplate => true
  | .noTests => true
  | .lacksRes _ _ => true
  | .sampleSolutionFailed _ _ => true
  | .problemOccured => true
  | .summaryErrors _ => true
  | _ => false

/-- A challenge record as the validator observes it. The four scalar fields
are recorded by their JavaScript truthiness, the only thing
`validateChallengeById` reads of them apart from passing `fn_name` and
`sample_solution` to `runTest`, whose `vm` outcomes the oracle supplies;
`tests` is `none` when the record lacks a `tests` key (an empty mapping is
truthy in JavaScript, hence `some []` is distinct from `none`). -/
structure ChallengeData where
  fn_name : Bool
  template : Bool
  sample_solution : Bool
  recommended_time_ms : Bool
  tests : Option (List (String × List (String × TestCase)))

/-- Per-test-case body of the validator loop (src/index.js lines 276-296):
the four structural checks followed by running the test against the sample
solution. -/
def validateTestCase (oracle : String → TestOracle) (sn tn : String)
    (test : TestCase) : List Diag :=
  (if test.args.isNone then [Diag.lacksArgs sn tn] else []) ++
  (if test.res.isNone then [Diag.lacksRes sn tn] else []) ++
  (if sn == "performance" && !truthyQ test.max_time_s then
    [Diag.lacksMaxTime sn tn] else []) ++
  (if (match test.res with | some (.num _) => true | _ => false) &&
      test.delta.isNone then [Diag.lacksDelta sn tn] else []) ++
  (if !(runTest test (oracle sn tn).1 (oracle sn tn).2).1.pass then
    [Diag.sampleSolutionFailed sn tn] else [])

/-- The `try` block of `validateChallengeById` (src/index.js lines 241-297):
returns the diagnostics emitted before either finishing or throwing, and
whether it threw. It throws when the challenge id is unknown (reading
`challenge.fn_name` of `undefined`) and when `tests` is absent (reading
`challenge.tests.correctness` of `undefined` — note this happens AFTER the
"no tests" error has been emitted). -/
def validateBody (c : Option ChallengeData) (oracle : String → TestOracle) :
    List Diag × Bool :=
  match c with
  | none => ([], true)
  | some ch =>
    let head :=
      (if !ch.fn_name then [Diag.noFnName] else []) ++
      (if !ch.template then [Diag.noTemplate] else []) ++
      (if !ch.sample_solution then [Diag.noSampleSolution] else []) ++
      (if !ch.recommended_time_ms then [Diag.noRecommendedTimeMs] else []) ++
      (if ch.tests.isNone then [Diag.noTests] else [])
    match ch.tests with
    | none => (head, true)
    | some tests =>
      let suitesHead :=
        (if (tests.find? (fun p => p.1 == "correctness")).isNone then
          [Diag.noCorrectnessSuite] else []) ++
        (if (tests.find? (fun p => p.1 == "edges")).isNone then
          [Diag.noEdgesSuite] else []) ++
        (if (tests.find? (fun p => p.1 == "performance")).isNone then
          [Diag.noPerformanceSuite] else [])
      let loop := tests.flatMap (fun p =>
        p.2.flatMap (fun q => validateTestCase oracle p.1 q.1 q.2))
      (head ++ suitesHead ++ loop, false)

/-- Number of `error` diagnostics in a list. -/
def errCount (ds : List Diag) : ℕ := (ds.filter Diag.isError).length

/-- Number of `warn` diagnostics in a list. -/
def warnCount (ds : List Diag) : ℕ := (ds.filter (fun d => !d.isError)).length

/-- Embedding of `validateChallengeById` (src/index.js lines 220-311) as the
sequence of diagnostics it reports: the `try` body's diagnostics, then — when
the body threw — the single caught-exception error naming the challenge, then
the error/warning summary line (itself emitted through `error`/`warn`, with
the counts read before the final increment). The function is total: no
exception escapes it. -/
def validateChallengeById (c : Option ChallengeData)
    (oracle : String → TestOracle) : List Diag :=
  let b := validateBody c oracle
  let ds := if b.2 then b.1 ++ [Diag.problemOccured] else b.1
  if errCount ds > 0 then ds ++ [Diag.summaryErrors (errCount ds)]
  else if warnCount ds > 0 then ds ++ [Diag.summaryWarnings (warnCount ds)]
  else ds

/-- State of the `CharReader` singleton: the queue of pending deferred read
requests, oldest first (modelled by request ids). Keys carry the
`key.name` string. -/
structure CharReaderState where
  promises : List ℕ
  deriving DecidableEq, Repr

/-- An event hitting the `CharReader`: a `read()` call enqueueing a deferred
promise, or a `keypress` event from stdin. -/
inductive CharEvent where
  | read (rid : ℕ)
  | keypress (key : String)
  deriving DecidableEq, Repr

/-- One step of the `CharReader` (src/index.js lines 313-345): `read()`
appends a fresh deferred promise to the queue and resolves nothing; a
`keypress` resolves the oldest pending promise with `key.name` when one is
pending (`shift()`), and otherwise does nothing — the key is discarded, not
buffered. The second component reports which request got resolved, with
which key. -/
def charReaderStep (s : CharReaderState) (e : CharEvent) :
    CharReaderState × Option (ℕ × String) :=
  match e with
  | .read rid => (⟨s.promises ++ [rid]⟩, none)
  | .keypress k =>
    match s.promises with
    | [] => (s, none)
    | p :: rest => (⟨rest⟩, some (p, k))

/-- Constant from `msToReadableDuration`: milliseconds per second. -/
def SECOND : ℕ := 1000

/-- Constant from `msToReadableDuration`: milliseconds per minute. -/
def MINUTE : ℕ := SECOND * 60

/-- Constant from `msToReadableDuration`: milliseconds per hour. -/
def HOUR : ℕ := MINUTE * 60

/-- Embedding of `msToReadableDuration` (src/index.js lines 350-370). All
call sites pass a nonnegative integer count of milliseconds. -/
def msToReadableDuration (ms : ℕ) (isChildCall : Bool) : String :=
  let spacing := if isChildCall then " " else ""
  if h : ms ≥ HOUR then
    spacing ++ toString (ms / HOUR) ++ "h" ++ msToReadableDuration (ms % HOUR) true
  else if h : ms ≥ MINUTE then
    spacing ++ toString (ms / MINUTE) ++ "min" ++
      msToReadableDuration (ms % MINUTE) true
  else if ms ≥ SECOND then
    spacing ++ toString (ms / SECOND) ++ "s"
  else if !isChildCall then
    toString ms ++ "ms"
  else
    ""
termination_by ms
decreasing_by
  · have : ms % HOUR < HOUR := Nat.mod_lt _ (by decide)
    omega
  · have : ms % MINUTE < MINUTE := Nat.mod_lt _ (by decide)
    have : MINUTE ≤ ms := h
    omega

/-- The duration of `ms` milliseconds as a list of (count, unit) fragments,
written from the spec's words: one fragment per nonzero hour/minute/second
component, and a single sub-second "ms" fragment exactly when the input is
below one second. Used as the specification side of the refinement claim
about `msToReadableDuration`. -/
def durationFragments (ms : ℕ) : List (ℕ × String) :=
  if ms < SECOND then [(ms, "ms")]
  else
    (if ms / HOUR ≠ 0 then [(ms / HOUR, "h")] else []) ++
    (if ms % HOUR / MINUTE ≠ 0 then [(ms % HOUR / MINUTE, "min")] else []) ++
    (if ms % MINUTE / SECOND ≠ 0 then [(ms % MINUTE / SECOND, "s")] else [])

/-- Rendering of one (count, unit) fragment. -/
def renderFragment (f : ℕ × String) : String := toString f.1 ++ f.2

/-- Rendering of a fragment list with a single space between each pair of
adjacent fragments. -/
def renderFragments : List (ℕ × String) → String
  | [] => ""
  | [f] => renderFragment f
  | f :: rest => renderFragment f ++ " " ++ renderFragments rest

lemma msDur_below_second (ms : ℕ) (h : ms < SECOND) :
    msToReadableDuration ms false = toString ms ++ "ms" := by
  rw [msToReadableDuration]
  have h1 : ¬ ms ≥ HOUR := by simp only [HOUR, MINUTE, SECOND] at *; omega
  have h2 : ¬ ms ≥ MINUTE := by simp only [MINUTE, SECOND] at *; omega
  have h3 : ¬ ms ≥ SECOND := by omega
  simp [h1, h2, h3]

lemma msDur_below_second_child (ms : ℕ) (h : ms < SECOND) :
    msToReadableDuration ms true = "" := by
  rw [msToReadableDuration]
  have h1 : ¬ ms ≥ HOUR := by simp only [HOUR, MINUTE, SECOND] at *; omega
  have h2 : ¬ ms ≥ MINUTE := by simp only [MINUTE, SECOND] at *; omega
  have h3 : ¬ ms ≥ SECOND := by omega
  simp [h1, h2, h3]

lemma msDur_second_range (ms : ℕ) (c : Bool) (h1 : SECOND ≤ ms) (h2 : ms < MINUTE) :
    msToReadableDuration ms c =
      (if c then " " else "") ++ toString (ms / SECOND) ++ "s" := by
  rw [msToReadableDuration]
  have hH : ¬ ms ≥ HOUR := by simp only [HOUR, MINUTE, SECOND] at *; omega
  have hM : ¬ ms ≥ MINUTE := by omega
  simp [hH, hM, h1, String.append_assoc]

lemma msDur_minute_range (ms : ℕ) (c : Bool) (h1 : MINUTE ≤ ms) (h2 : ms < HOUR) :
    msToReadableDuration ms c =
      (if c then " " else "") ++ toString (ms / MINUTE) ++ "min" ++
        msToReadableDuration (ms % MINUTE) true := by
  rw [msToReadableDuration]
  have hH : ¬ ms ≥ HOUR := by omega
  simp [hH, h1, String.append_assoc]

lemma msDur_hour_range (ms : ℕ) (c : Bool) (h : HOUR ≤ ms) :
    msToReadableDuration ms c =
      (if c then " " else "") ++ toString (ms / HOUR) ++ "h" ++
        msToReadableDuration (ms % HOUR) true := by
  rw [msToReadableDuration]
  simp [h, String.append_assoc]

lemma renderFragments_pair (a b : ℕ × String) :
    renderFragments [a, b] = renderFragment a ++ " " ++ renderFragment b := rfl

lemma renderFragments_triple (a b c : ℕ × String) :
    renderFragments [a, b, c] =
      renderFragment a ++ " " ++ (renderFragment b ++ " " ++ renderFragment c) := by
  simp [renderFragments, String.append_assoc]

lemma mod_minute_eq (ms : ℕ) : ms % HOUR % MINUTE = ms % MINUTE :=
  Nat.mod_mod_of_dvd ms ⟨60, rfl⟩

/-- Sub-hour tail: for `r < HOUR`, the child call renders exactly the
minute/second fragments of `r`, each preceded by one space. -/
lemma msDur_child_sub_hour (r : ℕ) (hr : r < HOUR) :
    msToReadableDuration r true =
      (if r / MINUTE ≠ 0 then " " ++ renderFragment (r / MINUTE, "min") else "") ++
      (if r % MINUTE / SECOND ≠ 0 then " " ++ renderFragment (r % MINUTE / SECOND, "s")
       else "") := by
  by_cases hm : MINUTE ≤ r
  · rw [msDur_minute_range r true hm hr]
    have hd : r / MINUTE ≠ 0 := by
      have := Nat.one_le_div_iff (by simp [MINUTE, SECOND] : 0 < MINUTE) |>.mpr hm
      omega
    by_cases hs : SECOND ≤ r % MINUTE
    · have hlt : r % MINUTE < MINUTE := Nat.mod_lt _ (by simp [MINUTE, SECOND])
      rw [msDur_second_range _ true hs hlt]
      have hds : r % MINUTE / SECOND ≠ 0 := by
        have := Nat.one_le_div_iff (by simp [SECOND] : 0 < SECOND) |>.mpr hs
        omega
      simp [hd, hds, renderFragment, String.append_assoc]
    · rw [msDur_below_second_child _ (by omega)]
      have hds : r % MINUTE / SECOND = 0 := Nat.div_eq_of_lt (by omega)
      simp [hd, hds, renderFragment, String.append_assoc]
  · have hdm : r / MINUTE = 0 := Nat.div_eq_of_lt (by omega)
    have hrm : r % MINUTE = r := Nat.mod_eq_of_lt (by omega)
    by_cases hs : SECOND ≤ r
    · rw [msDur_second_range r true hs (by omega)]
      have hds : r / SECOND ≠ 0 := by
        have := Nat.one_le_div_iff (by simp [SECOND] : 0 < SECOND) |>.mpr hs
        omega
      simp [hdm, hrm, hds, renderFragment, String.append_assoc]
    · rw [msDur_below_second_child r (by omega)]
      have hds : r / SECOND = 0 := Nat.div_eq_of_lt (by omega)
      simp [hdm, hrm, hds]

/-- Rendering of the non-initial fragments: one space before each. -/
def renderTail : List (ℕ × String) → String
  | [] => ""
  | f :: rest => " " ++ renderFragment f ++ renderTail rest

lemma renderFragments_cons (f : ℕ × String) (l : List (ℕ × String)) :
    renderFragments (f :: l) = renderFragment f ++ renderTail l := by
  induction l generalizing f with
  | nil => simp [renderFragments, renderTail]
  | cons g t ih =>
    simp only [renderFragments, renderTail, ih g, String.append_assoc]

lemma renderTail_split (P Q : Prop) [Decidable P] [Decidable Q] (a b : ℕ × String) :
    (if P then " " ++ renderFragment a else "") ++
      (if Q then " " ++ renderFragment b else "") =
    renderTail ((if P then [a] else []) ++ (if Q then [b] else [])) := by
  by_cases hp : P <;> by_cases hq : Q <;>
    simp [hp, hq, renderTail, String.append_assoc]

lemma msDur_hour_top (ms : ℕ) (h : HOUR ≤ ms) :
    msToReadableDuration ms false =
      toString (ms / HOUR) ++ "h" ++ msToReadableDuration (ms % HOUR) true := by
  rw [msDur_hour_range ms false h]
  simp

lemma msDur_minute_top (ms : ℕ) (h1 : MINUTE ≤ ms) (h2 : ms < HOUR) :
    msToReadableDuration ms false =
      toString (ms / MINUTE) ++ "min" ++ msToReadableDuration (ms % MINUTE) true := by
  rw [msDur_minute_range ms false h1 h2]
  simp

lemma msDur_second_top (ms : ℕ) (h1 : SECOND ≤ ms) (h2 : ms < MINUTE) :
    msToReadableDuration ms false = toString (ms / SECOND) ++ "s" := by
  rw [msDur_second_range ms false h1 h2]
  simp

lemma msDur_second_child (ms : ℕ) (h1 : SECOND ≤ ms) (h2 : ms < MINUTE) :
    msToReadableDuration ms true = " " ++ (toString (ms / SECOND) ++ "s") := by
  rw [msDur_second_range ms true h1 h2]
  simp [String.append_assoc]

lemma msDur_renders_fragments (ms : ℕ) :
    msToReadableDuration ms false = renderFragments (durationFragments ms) := by
  by_cases h0 : ms < SECOND
  · rw [msDur_below_second ms h0]
    simp [durationFragments, h0, renderFragments, renderFragment]
  · simp only [durationFragments, if_neg h0]
    by_cases hH : HOUR ≤ ms
    · have hA : ms / HOUR ≠ 0 := by
        have := Nat.one_le_div_iff
          (show 0 < HOUR by simp [HOUR, MINUTE, SECOND]) |>.mpr hH
        omega
      rw [msDur_hour_top ms hH,
        msDur_child_sub_hour (ms % HOUR)
          (Nat.mod_lt _ (by simp [HOUR, MINUTE, SECOND])),
        renderTail_split, mod_minute_eq, if_pos hA]
      simp only [List.append_assoc, List.singleton_append, List.cons_append]
      rw [renderFragments_cons]
      simp only [renderFragment, String.append_assoc, List.nil_append]
    · have hA : ms / HOUR = 0 := Nat.div_eq_of_lt (by omega)
      have hmh : ms % HOUR = ms := Nat.mod_eq_of_lt (by omega)
      rw [hmh, if_neg (by simp [hA] : ¬ ms / HOUR ≠ 0), List.nil_append]
      by_cases hM : MINUTE ≤ ms
      · have hB : ms / MINUTE ≠ 0 := by
          have := Nat.one_le_div_iff
            (show 0 < MINUTE by simp [MINUTE, SECOND]) |>.mpr hM
          omega
        rw [msDur_minute_top ms hM (by omega), if_pos hB]
        by_cases hs : SECOND ≤ ms % MINUTE
        · have hlt : ms % MINUTE < MINUTE := Nat.mod_lt _ (by simp [MINUTE, SECOND])
          have hC : ms % MINUTE / SECOND ≠ 0 := by
            have := Nat.one_le_div_iff (show 0 < SECOND by simp [SECOND]) |>.mpr hs
            omega
          rw [msDur_second_child _ hs hlt, if_pos hC]
          simp only [List.singleton_append, List.cons_append, List.nil_append]
          rw [renderFragments_cons]
          simp only [renderFragment, renderTail, String.append_assoc,
            String.append_empty]
        · have hC : ms % MINUTE / SECOND = 0 := Nat.div_eq_of_lt (by omega)
          rw [msDur_below_second_child _ (by omega), if_neg (by simp [hC]),
            List.append_nil]
          simp only [renderFragments, renderFragment, String.append_assoc,
            String.append_empty]
      · have hB : ms / MINUTE = 0 := Nat.div_eq_of_lt (by omega)
        have hmm : ms % MINUTE = ms := Nat.mod_eq_of_lt (by omega)
        have hC : ms / SECOND ≠ 0 := by
          have := Nat.one_le_div_iff (show 0 < SECOND by simp [SECOND]) |>.mpr
            (by omega : SECOND ≤ ms)
          omega
        rw [msDur_second_top ms (by omega) (by omega),
          if_neg (by simp [hB]), hmm, if_pos hC, List.nil_append]
        simp only [renderFragments, renderFragment, String.append_assoc,
          String.append_empty]

lemma runTest_error (test : TestCase) (err : String) (b : Except String ℚ) :
    runTest test (.error err) b =
      ({ pass := false, res := none, error := some err, time := none,
         validityPass := false }, false) := rfl

lemma runTest_not_pass_and_validity (test : TestCase) (e : Except String Value)
    (b : Except String ℚ) :
    ((runTest test e b).1.pass && (runTest test e b).1.validityPass) = false := by
  cases e with
  | error err => rfl
  | ok v =>
    simp only [runTest]
    split
    · split
      · rfl
      · split
        · split
          · rfl
          · simp
        · simp
    · simp

lemma runTest_time_exceeded (test : TestCase) (e : Except String Value)
    (b : Except String ℚ) (t m : ℚ) (h1 : test.max_time_s = some t)
    (h2 : (runTest test e b).1.time = some m) (h3 : m > t) :
    (runTest test e b).1.pass = false ∧
      (runTest test e b).1.validityPass = true := by
  cases e with
  | error err => simp [runTest] at h2
  | ok v =>
    by_cases hc : (compare v test.res test.delta && truthyQ test.max_time_s) = true
    · have hc' : (compare v test.res test.delta && truthyQ (some t)) = true := by
        rw [← h1]; exact hc
      obtain ⟨hp, ht⟩ := Bool.and_eq_true _ _ |>.mp hc'
      cases b with
      | error err => simp [runTest, hc] at h2
      | ok m' =>
        by_cases hmt : m' > t
        · simp [runTest, h1, hp, ht, hmt] at h2 ⊢
        · simp [runTest, h1, hp, ht, hmt] at h2
          subst h2
          exact absurd h3 hmt
    · simp [runTest, hc] at h2

lemma runSuiteTests_pass_eq (oracle : TestOracle) (all : Bool)
    (l : List (String × TestCase)) :
    (runSuiteTests oracle all l).1 =
      (runSuiteTests oracle all l).2.all (fun q => q.2.pass) := by
  induction l with
  | nil => rfl
  | cons hd tl ih =>
    obtain ⟨tn, test⟩ := hd
    simp only [runSuiteTests]
    split
    · simp [ih]
    · exact ih

lemma runSuiteTests_keys (oracle : TestOracle) (all : Bool)
    (l : List (String × TestCase)) :
    (runSuiteTests oracle all l).2.map Prod.fst =
      (l.filter (fun q => all || q.2.visible)).map Prod.fst := by
  induction l with
  | nil => rfl
  | cons hd tl ih =>
    obtain ⟨tn, test⟩ := hd
    simp only [runSuiteTests]
    by_cases hv : (all || test.visible) = true
    · simp [hv, List.filter_cons, ih]
    · simp only [Bool.not_eq_true] at hv
      simp [hv, List.filter_cons, ih]

lemma suite_pass_false_of_failed_member (oracle : TestOracle) (all : Bool)
    (l : List (String × TestCase)) (tn : String) (tr : TestResult)
    (hmem : (tn, tr) ∈ (runSuiteTests oracle all l).2) (hf : tr.pass = false) :
    (runSuiteTests oracle all l).1 = false := by
  rw [runSuiteTests_pass_eq, List.all_eq_false]
  exact ⟨(tn, tr), hmem, by simp [hf]⟩

/-- C1: whenever the canonical serialization of the actual value compares
equal (under JavaScript `==`) to the stored expected text, the Comparator
passes, whatever `delta` is. -/
theorem claim_C1_serialized_equality_passes (actual : Value) (res : Option Res)
    (delta : Option ℚ) (h : jsLooseEq (stringify actual) res = true) :
    compare actual res delta = true := by
  simp [compare, h]

theorem claim_C1_witness :
    jsLooseEq (stringify (Value.str "ok")) (some (Res.str "\"ok\"")) = true ∧
    compare (Value.str "ok") (some (Res.str "\"ok\"")) (some 5) = true :=
  ⟨by decide,
   claim_C1_serialized_equality_passes (Value.str "ok") (some (Res.str "\"ok\""))
     (some 5) (by decide)⟩

/-- C2 fails as stated: in the spec's own example the expected result is the
pre-serialized text "3.14", and a textual expected value never reaches the
tolerance branch (`typeof test.res === 'number'` is false), so actual 3.15
with delta 0.02 is rejected even though the claim says it passes. -/
theorem claim_C2_counterexample :
    compare (Value.num (63 / 20)) (some (Res.str "3.14")) (some (1 / 50)) = false ∧
    (runTest { res := some (Res.str "3.14"), delta := some (1 / 50) }
        (.ok (Value.num (63 / 20))) (.ok 0)).1.pass = false := by
  constructor
  · with_unfolding_all decide
  · with_unfolding_all decide

/-- C2 (amended): the tolerance rule applies only when the stored expected
value has number type and `delta` is truthy (defined and nonzero). In that
case, when serialized equality failed, the Comparator passes iff the
`ToNumber` coercion of the actual value lies within
`expected ± delta/2`, inclusive at both boundaries (so numeric expected 3.14
with delta 0.02 accepts actual 3.15); an expected value stored as serialized
text never receives tolerance. -/
theorem claim_C2_amended_numeric_tolerance (v : Value) (n d : ℚ) (hd : d ≠ 0)
    (hfail : jsLooseEq (stringify v) (some (Res.num n)) = false) :
    (compare v (some (Res.num n)) (some d) = true ↔
      ∃ a, toNumber v = some a ∧ n - d / 2 ≤ a ∧ a ≤ n + d / 2) := by
  simp only [compare, hfail, Bool.false_eq_true, if_false]
  cases htn : toNumber v with
  | none => simp [htn, hd]
  | some a => simp [htn, hd]

theorem claim_C2_witness :
    (1 / 50 : ℚ) ≠ 0 ∧
    jsLooseEq (stringify (Value.num (63 / 20))) (some (Res.num (157 / 50))) = false ∧
    (compare (Value.num (63 / 20)) (some (Res.num (157 / 50))) (some (1 / 50)) = true ↔
      ∃ a, toNumber (Value.num (63 / 20)) = some a ∧
        157 / 50 - (1 / 50) / 2 ≤ a ∧ a ≤ 157 / 50 + (1 / 50) / 2) :=
  ⟨by with_unfolding_all decide, by with_unfolding_all decide,
   claim_C2_amended_numeric_tolerance (Value.num (63 / 20)) (157 / 50) (1 / 50)
     (by with_unfolding_all decide) (by with_unfolding_all decide)⟩

/-- C3: a TestResult never has `pass` and `validityPass` both true; a test
whose measured mean time strictly exceeds its `max_time_s` comes back with
`pass = false` and `validityPass = true`; and any failed executed test (this
one included) forces its suite's `pass` to false. -/
theorem claim_C3_validity_exclusive :
    (∀ (test : TestCase) (e : Except String Value) (b : Except String ℚ),
        ((runTest test e b).1.pass && (runTest test e b).1.validityPass) = false) ∧
    (∀ (test : TestCase) (e : Except String Value) (b : Except String ℚ) (t m : ℚ),
        test.max_time_s = some t → (runTest test e b).1.time = some m → m > t →
        (runTest test e b).1.pass = false ∧ (runTest test e b).1.validityPass = true) ∧
    (∀ (oracle : TestOracle) (all : Bool) (l : List (String × TestCase))
        (tn : String) (tr : TestResult),
        (tn, tr) ∈ (runSuiteTests oracle all l).2 → tr.pass = false →
        (runSuiteTests oracle all l).1 = false) :=
  ⟨runTest_not_pass_and_validity, runTest_time_exceeded,
   suite_pass_false_of_failed_member⟩

/-- Concrete correct-but-too-slow test case used by witnesses: expected text
matches the evaluated value, time limit 1 second. -/
def slowTest : TestCase := { res := some (Res.str "\"x\""), max_time_s := some 1 }

/-- Oracle for `slowTest`: evaluation returns the string "x", the benchmark
measures a mean of 2 seconds. -/
def slowOracle : TestOracle := fun _ => (.ok (.str "x"), .ok 2)

theorem claim_C3_witness :
    slowTest.max_time_s = some 1 ∧
    (runTest slowTest (.ok (.str "x")) (.ok 2)).1.time = some 2 ∧
    (2 : ℚ) > 1 ∧
    ((runTest slowTest (.ok (.str "x")) (.ok 2)).1.pass = false ∧
      (runTest slowTest (.ok (.str "x")) (.ok 2)).1.validityPass = true) ∧
    ("t", (runTest slowTest (.ok (.str "x")) (.ok 2)).1) ∈
      (runSuiteTests slowOracle true [("t", slowTest)]).2 ∧
    (runSuiteTests slowOracle true [("t", slowTest)]).1 = false :=
  ⟨rfl, by with_unfolding_all decide, by with_unfolding_all decide,
   claim_C3_validity_exclusive.2.1 slowTest (.ok (.str "x")) (.ok 2) 1 2 rfl
     (by with_unfolding_all decide) (by with_unfolding_all decide),
   by with_unfolding_all decide,
   claim_C3_validity_exclusive.2.2 slowOracle true [("t", slowTest)] "t"
     (runTest slowTest (.ok (.str "x")) (.ok 2)).1
     (by with_unfolding_all decide) (by with_unfolding_all decide)⟩

/-- C4: the Benchmarker runs only after evaluation succeeded and the
Comparator passed; a test that failed evaluation or comparison never carries
a measured `time`. -/
theorem claim_C4_bench_only_after_pass :
    (∀ (test : TestCase) (e : Except String Value) (b : Except String ℚ),
        (runTest test e b).2 = true →
        ∃ v, e = .ok v ∧ compare v test.res test.delta = true) ∧
    (∀ (test : TestCase) (err : String) (b : Except String ℚ),
        (runTest test (.error err) b).1.time = none) ∧
    (∀ (test : TestCase) (v : Value) (b : Except String ℚ),
        compare v test.res test.delta = false →
        (runTest test (.ok v) b).1.time = none) := by
  refine ⟨?_, fun _ _ _ => rfl, ?_⟩
  · intro test e b h
    cases e with
    | error err => simp [runTest] at h
    | ok v =>
      refine ⟨v, rfl, ?_⟩
      by_cases hc : (compare v test.res test.delta && truthyQ test.max_time_s) = true
      · exact (Bool.and_eq_true _ _ |>.mp hc).1
      · simp [runTest, hc] at h
  · intro test v b hcf
    simp [runTest, hcf]

theorem claim_C4_witness :
    (runTest slowTest (.ok (.str "x")) (.ok 2)).2 = true ∧
    (∃ v, (Except.ok (ε := String) (Value.str "x")) = .ok v ∧
      compare v slowTest.res slowTest.delta = true) ∧
    compare (Value.str "zzz") slowTest.res slowTest.delta = false ∧
    (runTest slowTest (.ok (.str "zzz")) (.ok 2)).1.time = none :=
  ⟨by with_unfolding_all decide,
   claim_C4_bench_only_after_pass.1 slowTest (.ok (.str "x")) (.ok 2)
     (by with_unfolding_all decide),
   by with_unfolding_all decide,
   claim_C4_bench_only_after_pass.2.2 slowTest (.str "zzz") (.ok 2)
     (by with_unfolding_all decide)⟩

lemma runSuites_spec (all : Bool) (oracle : String → TestOracle)
    (tests : List (String × List (String × TestCase))) :
    (runSuites all oracle tests).2 =
      (tests.filter (fun p => !p.2.isEmpty)).map
        (fun p => (p.1, SuiteResult.mk (runSuiteTests (oracle p.1) all p.2).1
          (runSuiteTests (oracle p.1) all p.2).2)) ∧
    (runSuites all oracle tests).1 =
      (runSuites all oracle tests).2.all (fun p => p.2.pass) := by
  induction tests with
  | nil => exact ⟨rfl, rfl⟩
  | cons hd tl ih =>
    obtain ⟨sn, suite⟩ := hd
    by_cases he : suite.isEmpty
    · simpa [runSuites, he, List.filter_cons] using ih
    · simp only [runSuites, he, if_false, Bool.not_eq_true, List.filter_cons]
      simp [he, ih.1, ih.2]

/-- C5 fails as stated: a suite whose only test is hidden is not skipped
when `includeHidden` is false — the engine still records an entry for it,
with `pass = true` and an empty tests mapping. Only suites with zero
declared test cases are skipped. -/
theorem claim_C5_counterexample :
    (challengeTest [("suite1", [("t1", { visible := false })])] false
        (fun _ _ => (.ok .null, .ok 0))).suites =
      [("suite1", ⟨true, []⟩)] := rfl

/-- C5 (amended): suites are iterated in declared order and a suite with
zero declared test cases contributes no entry, but every other suite does —
even one whose tests are all filtered out (then with `pass = true` and no
tests). Within a recorded suite, tests run in declared order, a test
executes exactly when `includeHidden OR visible`, the suite's `pass` is the
AND of its executed tests' `pass`, and the report's `pass` is the AND of the
recorded suites' `pass`. -/
theorem claim_C5_amended_iteration (tests : List (String × List (String × TestCase)))
    (all : Bool) (oracle : String → TestOracle) :
    (challengeTest tests all oracle).suites =
      (tests.filter (fun p => !p.2.isEmpty)).map
        (fun p => (p.1, SuiteResult.mk (runSuiteTests (oracle p.1) all p.2).1
          (runSuiteTests (oracle p.1) all p.2).2)) ∧
    (∀ (o : TestOracle) (l : List (String × TestCase)),
        (runSuiteTests o all l).1 =
          (runSuiteTests o all l).2.all (fun q => q.2.pass) ∧
        (runSuiteTests o all l).2.map Prod.fst =
          (l.filter (fun q => all || q.2.visible)).map Prod.fst) ∧
    (challengeTest tests all oracle).pass =
      (challengeTest tests all oracle).suites.all (fun p => p.2.pass) :=
  ⟨(runSuites_spec all oracle tests).1,
   fun o l => ⟨runSuiteTests_pass_eq o all l, runSuiteTests_keys o all l⟩,
   (runSuites_spec all oracle tests).2⟩

/-- C6: a thrown/failed evaluation is captured per test case as
`{pass: false, error}` with no benchmark invocation and no time; the engine
records an entry for every executed test whatever the oracle outcomes are
(so it continues past failures), and the report always comes back with the
declared suite structure — no execution or timing error escapes the run. -/
theorem claim_C6_error_capture :
    (∀ (test : TestCase) (err : String) (b : Except String ℚ),
        runTest test (.error err) b =
          ({ pass := false, res := none, error := some err, time := none,
             validityPass := false }, false)) ∧
    (∀ (o : TestOracle) (all : Bool) (l : List (String × TestCase)),
        (runSuiteTests o all l).2.map Prod.fst =
          (l.filter (fun q => all || q.2.visible)).map Prod.fst) ∧
    (∀ (tests : List (String × List (String × TestCase))) (all : Bool)
        (oracle : String → TestOracle),
        (challengeTest tests all oracle).suites.map Prod.fst =
          (tests.filter (fun p => !p.2.isEmpty)).map Prod.fst) := by
  refine ⟨runTest_error, fun o all l => runSuiteTests_keys o all l, ?_⟩
  intro tests all oracle
  have h := (runSuites_spec all oracle tests).1
  simp only [challengeTest]
  rw [h, List.map_map]
  rfl

lemma problem_not_in_validateTestCase (o : String → TestOracle) (sn tn : String)
    (t : TestCase) : Diag.problemOccured ∉ validateTestCase o sn tn t := by
  intro h
  simp only [validateTestCase, List.mem_append] at h
  rcases h with ((((h | h) | h) | h) | h) <;> split_ifs at h <;> simp_all

lemma mem_ite_singleton (d x : Diag) (c : Prop) [Decidable c] :
    (d ∈ (if c then [x] else [])) ↔ (c ∧ d = x) := by
  split <;> simp_all

lemma problem_not_in_body (c : Option ChallengeData) (o : String → TestOracle) :
    Diag.problemOccured ∉ (validateBody c o).1 := by
  cases c with
  | none => simp [validateBody]
  | some ch =>
    simp only [validateBody]
    cases htests : ch.tests with
    | none =>
      simp [mem_ite_singleton]
    | some tests =>
      intro h
      simp only [List.mem_append, mem_ite_singleton, List.mem_flatMap,
        reduceCtorEq, and_false, false_or, or_false] at h
      obtain ⟨p, _, q, _, hq⟩ := h
      exact problem_not_in_validateTestCase o p.1 q.1 q.2 hq

/-- C7 fails as stated: on a challenge whose record lacks `tests` (all other
fields present), the validator reports TWO errors before its summary line,
not one — the "no tests" error, and then the caught TypeError from reading
`challenge.tests.correctness` of `undefined`, reported as the
problem-occured error. The summary line then says "failed with 2 errors". -/
theorem claim_C7_counterexample :
    validateChallengeById (some ⟨true, true, true, true, none⟩)
        (fun _ _ => (.ok .null, .ok 0)) =
      [Diag.noTests, Diag.problemOccured, Diag.summaryErrors 2] ∧
    errCount [Diag.noTests, Diag.problemOccured] = 2 := ⟨rfl, rfl⟩

/-- C7 (amended): validating a challenge that lacks `tests` (other fields
present) reports the "no tests" error, then throws internally on
`challenge.tests.correctness` and reports the caught exception as exactly
one further error, closing with the two-error summary; in general every
exception thrown inside validation is caught and converted into exactly one
problem-occured error — validation is total and never propagates. -/
theorem claim_C7_amended_validator :
    (∀ (o : String → TestOracle),
        validateChallengeById (some ⟨true, true, true, true, none⟩) o =
          [Diag.noTests, Diag.problemOccured, Diag.summaryErrors 2]) ∧
    (∀ (c : Option ChallengeData) (o : String → TestOracle),
        (validateChallengeById c o).count Diag.problemOccured =
          (if (validateBody c o).2 then 1 else 0)) := by
  refine ⟨fun o => rfl, ?_⟩
  intro c o
  have hnot : (validateBody c o).1.count Diag.problemOccured = 0 :=
    List.count_eq_zero.mpr (problem_not_in_body c o)
  simp only [validateChallengeById]
  by_cases hb : (validateBody c o).2 = true
  · simp only [hb, if_true]
    split_ifs <;> simp [List.count_append, hnot]
  · simp only [Bool.not_eq_true] at hb
    simp only [hb, Bool.false_eq_true, if_false]
    split_ifs <;> simp [List.count_append, hnot]

/-- C8: the duration formatter is the rendering of the (count, unit)
fragment sequence of the input — one fragment per nonzero hour, minute and
second component, adjacent fragments separated by a single space — and the
sub-second "ms" fragment appears in that sequence exactly when the input is
below one second. -/
theorem claim_C8_duration_fragments (ms : ℕ) :
    msToReadableDuration ms false = renderFragments (durationFragments ms) ∧
    ((∃ c, (c, "ms") ∈ durationFragments ms) ↔ ms < SECOND) := by
  refine ⟨msDur_renders_fragments ms, ?_, fun h => ⟨ms, by simp [durationFragments, h]⟩⟩
  rintro ⟨c, hc⟩
  by_cases h : ms < SECOND
  · exact h
  · exfalso
    simp only [durationFragments, if_neg h, List.mem_append] at hc
    rcases hc with (hc | hc) | hc <;> split_ifs at hc <;> simp_all

/-- C9: the primary check is JavaScript loose equality between the
serialization of the actual value and the stored expected value: a textual
expected passes exactly on byte equality of serializations (`delta` is
irrelevant), a number-typed expected passes exactly when the serialization
string coerces (via `ToNumber`) to that number, and the tolerance branch is
reachable only for number-typed expected values with truthy `delta`. -/
theorem claim_C9_coercion_and_number_only_tolerance :
    (∀ (v : Value) (s : String) (d : Option ℚ),
        compare v (some (Res.str s)) d = (stringify v == some s)) ∧
    (∀ (v : Value) (n : ℚ),
        jsLooseEq (stringify v) (some (Res.num n)) = true ↔
          ∃ str, stringify v = some str ∧ parseNumber str = some n) ∧
    (∀ (v : Value) (n : ℚ) (d : Option ℚ),
        compare v (some (Res.num n)) d = true ↔
          (jsLooseEq (stringify v) (some (Res.num n)) = true ∨
            ∃ d0, d = some d0 ∧ d0 ≠ 0 ∧
              ∃ a, toNumber v = some a ∧ n - d0 / 2 ≤ a ∧ a ≤ n + d0 / 2)) := by
  refine ⟨?_, ?_, ?_⟩
  · intro v s d
    cases hsv : stringify v with
    | none => cases d <;> simp [compare, jsLooseEq, hsv]
    | some t =>
      by_cases hts : (t == s) = true <;> cases d <;>
        simp [compare, jsLooseEq, hsv, hts]
  · intro v n
    cases hsv : stringify v with
    | none => simp [jsLooseEq, hsv]
    | some t => simp [jsLooseEq, hsv, beq_iff_eq]
  · intro v n d
    by_cases hl : jsLooseEq (stringify v) (some (Res.num n)) = true
    · simp [compare, hl]
    · simp only [Bool.not_eq_true] at hl
      cases d with
      | none => simp [compare, hl]
      | some d0 =>
        by_cases hd0 : d0 = 0
        · simp [compare, hl, hd0]
        · cases htn : toNumber v with
          | none => simp [compare, hl, hd0, htn]
          | some a => simp [compare, hl, hd0, htn]

/-- C10: a keypress arriving with no pending read request leaves the reader
state unchanged and resolves nothing (keys are never buffered); a read
request only enqueues itself at the back of the pending queue, resolving
nothing (so it waits for a later keypress); and a keypress with requests
pending resolves exactly the oldest request, removing it from the queue. -/
theorem claim_C10_charreader_fifo :
    (∀ (k : String), charReaderStep ⟨[]⟩ (.keypress k) = (⟨[]⟩, none)) ∧
    (∀ (s : CharReaderState) (rid : ℕ),
        charReaderStep s (.read rid) = (⟨s.promises ++ [rid]⟩, none)) ∧
    (∀ (p : ℕ) (rest : List ℕ) (k : String),
        charReaderStep ⟨p :: rest⟩ (.keypress k) = (⟨rest⟩, some (p, k))) :=
  ⟨fun _ => rfl, fun _ _ => rfl, fun _ _ _ => rfl⟩

end Learn
